import Mathlib

/-!
Verification development for the XNAT-backed content cache of the arcana
repository (src/arcana2/repositories/xnat.py).

The relevant routines are shallowly embedded here:
strings are modelled as `List Char`, the local cache state of a single item
as an explicit record, filesystem and remote effects as explicit traces or
state transformers, and Python exceptions as `Except` errors.
-/

namespace Arcana

/-! ## Python string primitives

Python's `str.split(sep)` modelled on `List Char`, specialised to the three
separators the source uses: `'/'`, `'__'` and `'___'`.  Matches are found
left to right, non-overlapping, and empty fields are kept, exactly as in
Python. -/

/-- Prepend a character onto the first group of a split result. -/
def consHead (c : Char) : List (List Char) → List (List Char)
  | [] => [[c]]
  | g :: gs => (c :: g) :: gs

/-- Python's `s.split('/')`. -/
def splitSlash : List Char → List (List Char)
  | [] => [[]]
  | c :: rest => if c = '/' then [] :: splitSlash rest else consHead c (splitSlash rest)

/-- Python's `s.split('__')`. -/
def splitU2 : List Char → List (List Char)
  | [] => [[]]
  | '_' :: '_' :: rest => [] :: splitU2 rest
  | c :: rest => consHead c (splitU2 rest)

/-- Python's `s.split('___')`. -/
def splitU3 : List Char → List (List Char)
  | [] => [[]]
  | '_' :: '_' :: '_' :: rest => [] :: splitU3 rest
  | c :: rest => consHead c (splitU3 rest)

/-- Python's `sep.join(parts)`, modelled on `List Char`. -/
def pyJoin (sep : List Char) : List (List Char) → List Char
  | [] => []
  | [g] => g
  | g :: g2 :: gs => g ++ sep ++ pyJoin sep (g2 :: gs)

/-- One step of CPython's `posixpath.join`: how the accumulated path is
extended by the next component. -/
def joinOne (path b : List Char) : List Char :=
  if b.head? = some '/' then b
  else if path = [] ∨ path.getLast? = some '/' then path ++ b
  else path ++ '/' :: b

/-- CPython's `posixpath.join(a, *parts)`. -/
def posixJoin (a : List Char) (parts : List (List Char)) : List Char :=
  parts.foldl joinOne a

/-- Embedding of `Xnat.cache_path` (xnat.py lines 661-683): the cache path of
an item is `os.path.join(self.cache_dir, *uri.split('/')[3:])`. -/
def cache_path (cache_dir : List Char) (uri : List Char) : List Char :=
  posixJoin cache_dir ((splitSlash uri).drop 3)

/-! ## Local cache state of a single item

The claims about `get_file_group_paths` and `_delayed_download` concern the
on-disk state attached to one item: whether the cache path exists, the
contents of the sidecar manifest file `<cache path>.md5.json`, and whether
the transient marker directory `<cache path>.download` exists. -/

/-- A checksum manifest: a JSON object mapping file names to digests, in
insertion order (Python dicts and JSON round-trips preserve order). -/
abbrev Manifest := List (String × String)

/-- The Python exceptions the embedded routines can raise. -/
inductive PyError where
  | jsonDecodeError
  | attributeError
  | arcanaError
  | indexError
  | keyError
  | valueError
  deriving DecidableEq, Repr

instance {ε α : Type} [DecidableEq ε] [DecidableEq α] : DecidableEq (Except ε α) :=
  fun a b =>
    match a, b with
    | .error e1, .error e2 => decidable_of_iff (e1 = e2) (by simp)
    | .ok a1, .ok a2 => decidable_of_iff (a1 = a2) (by simp)
    | .error _, .ok _ => isFalse (by simp)
    | .ok _, .error _ => isFalse (by simp)

/-- Contents of the sidecar manifest file when it exists: either unparsable
as JSON, or parsing to a manifest. -/
inductive ManifestFile where
  | corrupt
  | parsed (m : Manifest)
  deriving DecidableEq, Repr

/-- On-disk state of one item under the cache root.  The manifest file is
`none` when absent. -/
structure CacheState where
  cacheExists : Bool
  manifest : Option ManifestFile
  markerExists : Bool
  deriving DecidableEq, Repr

/-- Outcome of the remote byte transfer performed by `download_file_group`:
either the downloaded archive extracts cleanly or it is corrupt
(`zipfile.BadZipfile`). -/
inductive Transfer where
  | ok
  | badZip
  deriving DecidableEq, Repr

/-- Embedding of the cache-validity check of `Xnat.get_file_group_paths`
(xnat.py lines 171-183).  The cached manifest is read inside
`try ... except IOError: pass`, so an absent manifest file falls through
with `need_to_download` still true, while a manifest file that is present
but unparsable raises `json.JSONDecodeError` (a `ValueError`, not an
`IOError`) which propagates.  `remote` is `file_group.checksums`, the
manifest fetched from the server. -/
def need_to_download (st : CacheState) (check_md5 : Bool) (remote : Manifest) :
    Except PyError Bool :=
  if st.cacheExists then
    if check_md5 then
      match st.manifest with
      | none => .ok true
      | some .corrupt => .error .jsonDecodeError
      | some (.parsed cached) => .ok (decide (cached ≠ remote))
    else .ok false
  else .ok true

/-- Embedding of the effect of `Xnat.download_file_group` (xnat.py lines
576-601) on the item's cache state.  The routine stages the zip archive
inside the marker directory, fetches the remote checksums, extracts the
archive (raising `ArcanaError` when the zip is corrupt, with the cache path
untouched and the marker directory still present), then replaces the cache
path with the extracted data and writes the manifest file directly at
`<cache path>.md5.json`. -/
def download_file_group (st : CacheState) (remote : Manifest) (tr : Transfer) :
    CacheState × Except PyError Unit :=
  match tr with
  | .badZip => (st, .error .arcanaError)
  | .ok =>
    ({ st with cacheExists := true, manifest := some (.parsed remote) }, .ok ())

/-- Embedding of the cache branch of `Xnat.get_file_group_paths` (xnat.py
lines 170-216) as a transformer on the item's cache state.  The returned
flag records whether the resource's files were transferred.  When the
marker directory already exists, `os.makedirs` fails with `EEXIST` and the
handler evaluates `self._race_cond_delay` - an attribute that does not
exist on the class (the field is `race_condition_delay`) - so an
`AttributeError` is raised before `_delayed_download` can be called.  When
the marker is created and `download_file_group` raises, the exception
propagates with no cleanup: `shutil.rmtree(tmp_dir)` runs only on the
success path. -/
def get_file_group_paths (st : CacheState) (check_md5 : Bool) (remote : Manifest)
    (tr : Transfer) : CacheState × Except PyError Bool :=
  match need_to_download st check_md5 remote with
  | .error e => (st, .error e)
  | .ok false => (st, .ok false)
  | .ok true =>
    if st.markerExists then
      (st, .error .attributeError)
    else
      let st1 := { st with markerExists := true }
      match download_file_group st1 remote tr with
      | (st2, .error e) => (st2, .error e)
      | (st2, .ok _) => ({ st2 with markerExists := false }, .ok true)

/-- Result of a `_delayed_download` call that terminated within the modelled
horizon: either the other process's result was adopted, or this process
took over the stale marker and ran a fresh download. -/
inductive DelayedOutcome where
  | adopted
  | tookOver
  deriving DecidableEq, Repr

/-- Embedding of `Xnat._delayed_download` (xnat.py lines 603-628).  Each
recursion sleeps for the delay and then observes the item's cache state
together with the marker directory's modification time; the observations
seen at successive wake-ups are passed as a list, and `none` means the
recursion was still running when the modelled observations ran out.  The
routine returns as soon as `op.exists(cache_path)` holds, with whatever
marker state the observation carries; when the marker's modification time
is unchanged over a full delay it removes the stale marker, recreates it,
and reruns `download_file_group` - after which no `shutil.rmtree(tmp_dir)`
is executed on this path, so the recreated marker directory remains. -/
def delayed_download (initialMod : Nat) :
    List (CacheState × Nat) → Option (DelayedOutcome × Bool)
  | [] => none
  | (st, modTime) :: rest =>
    if st.cacheExists then some (.adopted, st.markerExists)
    else if initialMod ≠ modTime then delayed_download modTime rest
    else some (.tookOver, true)

/-! ## Local filesystem operation traces

For the claim about how the manifest file is written, the two writers are
embedded as the sequences of filesystem operations they issue, in program
order.  `writeFile p` is a direct `open(p, 'w')` followed by writes to the
open handle; `rename` would be an `os.rename`/`os.replace`, which neither
routine performs. -/

inductive FsOp where
  | writeFile (p : String)
  | rename (src dst : String)
  | mkdirOp (p : String)
  | rmtreeOp (p : String)
  | extractZip (dst : String)
  | moveTree (src dst : String)
  | copyFileOp (src dst : String)
  | copyTreeOp (src dst : String)
  deriving DecidableEq, Repr

/-- The filesystem operations issued by `Xnat.download_file_group` (xnat.py
lines 576-601), given the cache path of the item: stage the zip inside the
marker directory, extract it, remove any existing cache path, move the
extracted data root into place, and write the manifest sidecar by opening
`<cache path>.md5.json` directly. -/
def download_file_group_fs_ops (cachePath : String) : List FsOp :=
  [ .writeFile (cachePath ++ ".download/download.zip"),
    .extractZip (cachePath ++ ".download/expanded"),
    .rmtreeOp cachePath,
    .moveTree (cachePath ++ ".download/expanded/files") cachePath,
    .writeFile (cachePath ++ ".md5.json") ]

/-- The local filesystem operations issued by `Xnat.put_file_group` (xnat.py
lines 276-291) for a non-directory file group: remove any existing cache
path, recreate it, copy the primary file and each auxiliary file in, and
write the manifest sidecar by opening `<cache path>.md5.json` directly. -/
def put_file_group_fs_ops (cachePath : String) (cacheExisted : Bool)
    (primarySrc primaryName : String) (auxFiles : List (String × String)) : List FsOp :=
  (if cacheExisted then [FsOp.rmtreeOp cachePath] else [])
    ++ [FsOp.mkdirOp cachePath,
        FsOp.copyFileOp primarySrc (cachePath ++ "/" ++ primaryName)]
    ++ auxFiles.map (fun sc => FsOp.copyFileOp sc.2 (cachePath ++ "/" ++ sc.1))
    ++ [FsOp.writeFile (cachePath ++ ".md5.json")]

/-! ## Remote operations of the upload path -/

/-- The remote operations issued by the upload section of
`Xnat.put_file_group` (xnat.py lines 294-317): delete the pre-existing
resource of the same escaped name when there is one, create the replacement
`ResourceCatalog`, and upload the files into it one by one. -/
inductive RemoteOp where
  | deleteRes
  | createRes
  | uploadFile (name : String)
  deriving DecidableEq, Repr

/-- Presence of the item's resources on the server: whether the old resource
still exists, whether the replacement resource has been created, and which
files have been uploaded into the replacement so far. -/
structure RemoteState where
  oldPresent : Bool
  newPresent : Bool
  uploaded : List String
  deriving DecidableEq, Repr

/-- Effect of one remote operation on the server state. -/
def applyRemoteOp (st : RemoteState) : RemoteOp → RemoteState
  | .deleteRes => { st with oldPresent := false }
  | .createRes => { st with newPresent := true, uploaded := [] }
  | .uploadFile f => { st with uploaded := st.uploaded ++ [f] }

/-- The sequence of remote operations issued by `Xnat.put_file_group` in
program order, given whether a resource with the escaped item name already
exists on the server and the list of file names to upload. -/
def put_file_group_remote_ops (resourceExists : Bool) (files : List String) :
    List RemoteOp :=
  (if resourceExists then [RemoteOp.deleteRes] else [])
    ++ [RemoteOp.createRes] ++ files.map RemoteOp.uploadFile

/-! ## Python dict operations and the checksum manifest

`Xnat.get_checksums` builds a dict of name-to-digest pairs from the remote
file listing and then re-keys the primary file's entry under `"."`.  Python
dicts are modelled as association lists in insertion order. -/

/-- Python's `d.pop(k)`: returns the value and the dict without the entry,
or `none` (a `KeyError`) when the key is absent. -/
def pyPop {K V : Type} [BEq K] (k : K) (d : List (K × V)) :
    Option (V × List (K × V)) :=
  match d.lookup k with
  | none => none
  | some v => some (v, d.eraseP (fun kv => kv.1 == k))

/-- Python's `d[k] = v`: updates the entry in place when the key is present,
otherwise appends it. -/
def pyInsert {K V : Type} [BEq K] (k : K) (v : V) (d : List (K × V)) : List (K × V) :=
  if (d.lookup k).isSome then
    d.map (fun kv => if kv.1 == k then (k, v) else kv)
  else d ++ [(k, v)]

/-- Embedding of `Xnat.get_checksums` (xnat.py lines 359-388).  `checksums`
is the dict built from the remote file listing; `primaryOf` stands for
`file_group.data_format.assort_files(checksums.keys())[0]`, the function
that picks the primary file name out of the listed names.  For a
non-directory file group the primary file's entry is re-keyed under the
sentinel `"."` via `checksums['.'] = checksums.pop(primary)`. -/
def get_checksums (isDirectory : Bool) (primaryOf : List String → String)
    (checksums : List (String × String)) : Except PyError (List (String × String)) :=
  if isDirectory then .ok checksums
  else
    match pyPop (primaryOf (checksums.map Prod.fst)) checksums with
    | none => .error .keyError
    | some (v, rest) => .ok (pyInsert "." v rest)

/-! ## The Clinical dimensions enum and escaped item names -/

/-- Modelled from the spec: the `Clinical` enum lives in
`arcana2.dimensions.clinical`, which is not under src; its members and
`is_parent` behaviour are reconstructed from its unit tests in
`src/arcana2/core/data/tests/test_enum.py`.  It is a flag enum over three
axes (group, member, timepoint); `dataset` carries no bits and `session`
carries all three. -/
inductive Clinical where
  | dataset
  | member
  | group
  | timepoint
  | subject
  | batch
  | matchedpoint
  | session
  deriving DecidableEq, Repr, Fintype

/-- Modelled from the spec: the flag value of each `Clinical` member,
reconstructed so that `is_parent` matches every assertion of the enum's
unit tests (see `clinical_is_parent_matches_tests`). -/
def Clinical.val : Clinical → Nat
  | .dataset => 0
  | .member => 1
  | .group => 2
  | .subject => 3
  | .timepoint => 4
  | .matchedpoint => 5
  | .batch => 6
  | .session => 7

/-- Modelled from the spec: `Clinical.is_parent`, as pinned down by the
enum's unit tests: a frequency is a parent of another when its layer bits
are a proper subset of the other's. -/
def Clinical.is_parent (a b : Clinical) : Bool :=
  (a.val &&& b.val == a.val) && (a != b)

/-- The exact set of `(parent, child)` pairs asserted true by
`src/arcana2/core/data/tests/test_enum.py`; the test asserts false for every
other combination of the eight members. -/
def clinicalTestParents : List (Clinical × Clinical) :=
  [ (.member, .session), (.member, .subject), (.member, .matchedpoint),
    (.group, .session), (.group, .subject), (.group, .batch),
    (.timepoint, .session), (.timepoint, .batch), (.timepoint, .matchedpoint),
    (.subject, .session), (.batch, .session), (.matchedpoint, .session),
    (.dataset, .session), (.dataset, .subject), (.dataset, .member),
    (.dataset, .group), (.dataset, .timepoint), (.dataset, .batch),
    (.dataset, .matchedpoint) ]

/-- Python's `Clinical[name]` lookup by member name, `none` for a
`KeyError`. -/
def clinicalByName : List Char → Option Clinical
  | l =>
    if l = "dataset".data then some .dataset
    else if l = "member".data then some .member
    else if l = "group".data then some .group
    else if l = "timepoint".data then some .timepoint
    else if l = "subject".data then some .subject
    else if l = "batch".data then some .batch
    else if l = "matchedpoint".data then some .matchedpoint
    else if l = "session".data then some .session
    else none

/-- Python's `Clinical(value)` lookup by flag value, `none` for a
`ValueError`. -/
def clinicalByValue (n : Nat) : Option Clinical :=
  if n = 0 then some .dataset
  else if n = 1 then some .member
  else if n = 2 then some .group
  else if n = 3 then some .subject
  else if n = 4 then some .timepoint
  else if n = 5 then some .matchedpoint
  else if n = 6 then some .batch
  else if n = 7 then some .session
  else none

/-- Modelled from the spec: `str(l)` for a `Clinical` member `l`, as used in
the f-string of `escape_name`; assumed to render as the bare member name so
that `Clinical[...]` in `unescape_name` can look it up again. -/
def clinicalStr : Clinical → List Char
  | .dataset => "dataset".data
  | .member => "member".data
  | .group => "group".data
  | .timepoint => "timepoint".data
  | .subject => "subject".data
  | .batch => "batch".data
  | .matchedpoint => "matchedpoint".data
  | .session => "session".data

/-- Modelled from the spec: `frequency.hierarchy`, the per-layer frequencies
whose IDs compose the node's address, reconstructed as the single-axis
members whose bit is set in the frequency's value. -/
def Clinical.hierarchy (f : Clinical) : List Clinical :=
  [Clinical.group, Clinical.member, Clinical.timepoint].filter
    (fun l => l.val &&& f.val == l.val)

/-- The slice of a data node that `escape_name` and `unescape_name` read:
its frequency and the ID of each layer frequency. -/
structure DataNode where
  frequency : Clinical
  ids : Clinical → List Char

/-- The slice of an item (file group, field or provenance record) that
`escape_name` reads: its name path and its data node. -/
structure Item where
  name_path : List (List Char)
  data_node : DataNode

/-- Embedding of `Xnat.escape_name` (xnat.py lines 691-713).  For a node of
subject or session frequency the escaped name is `'__'.join(name_path)`;
for any other frequency the source reassigns `name` to the triple-
underscore-delimited layer-ID string, discarding the joined name path
entirely. -/
def escape_name (item : Item) : List Char :=
  let name := pyJoin "__".data item.name_path
  if item.data_node.frequency = Clinical.subject
      ∨ item.data_node.frequency = Clinical.session then
    name
  else
    "___".data
      ++ pyJoin "___".data
          ((item.data_node.frequency.hierarchy).map
            (fun l => clinicalStr l ++ "__".data ++ item.data_node.ids l))
      ++ "___".data

/-- The loop body of `Xnat.unescape_name` over `id_parts`, with the ids dict
threaded through.  Each part is unpacked by `part.split('__')` into exactly
two pieces (a `ValueError` otherwise), the layer frequency is looked up by
name (a `KeyError` when unknown), and the id is stored in the dict.  The
statement `freq_value != layer_freq` in the source is a bare comparison
expression, not an or-assignment, so the accumulated frequency value stays
`0` throughout. -/
def parse_id_parts (acc : List (Clinical × List Char)) :
    List (List Char) → Except PyError (List (Clinical × List Char))
  | [] => .ok acc
  | part :: rest =>
    match splitU2 part with
    | [a, b] =>
      match clinicalByName a with
      | some layer_freq => parse_id_parts (pyInsert layer_freq b acc) rest
      | none => .error .keyError
    | _ => .error .valueError

/-- Embedding of `Xnat.unescape_name` (xnat.py lines 715-743).  The escaped
name is split on `'___'` and sliced `[1:-1]`; the loop fills the ids dict
while leaving `freq_value` at `0` (see `parse_id_parts`), so the returned
frequency is always `Clinical(0)`; finally the name path is rebuilt from
`id_parts[-1]`, which raises an `IndexError` when `id_parts` is empty. -/
def unescape_name (xname : List Char) :
    Except PyError (List Char × Clinical × List (Clinical × List Char)) :=
  let id_parts := ((splitU3 xname).drop 1).dropLast
  match parse_id_parts [] id_parts with
  | .error e => .error e
  | .ok ids =>
    match clinicalByValue 0 with
    | none => .error .valueError
    | some frequency =>
      match id_parts.getLast? with
      | none => .error .indexError
      | some last => .ok (pyJoin ['/'] (splitU2 last), frequency, ids)

/-! ## Properties of splitting and joining on a slash -/

theorem splitSlash_ne_nil (l : List Char) : splitSlash l ≠ [] := by
  induction l with
  | nil => simp [splitSlash]
  | cons c rest ih =>
    simp only [splitSlash]
    split
    · simp
    · cases h : splitSlash rest with
      | nil => exact absurd h ih
      | cons g gs => simp [consHead, h]

theorem splitSlash_sep_free (l : List Char) : ∀ g ∈ splitSlash l, '/' ∉ g := by
  induction l with
  | nil =>
    intro g hg
    simp [splitSlash] at hg
    simp [hg]
  | cons c rest ih =>
    intro g hg
    by_cases hc : c = '/'
    · simp only [splitSlash, if_pos hc] at hg
      rcases List.mem_cons.mp hg with hg | hg
      · simp [hg]
      · exact ih g hg
    · simp only [splitSlash, if_neg hc] at hg
      cases hsp : splitSlash rest with
      | nil => exact absurd hsp (splitSlash_ne_nil rest)
      | cons g0 gs =>
        rw [hsp] at hg
        simp only [consHead] at hg
        rcases List.mem_cons.mp hg with hg | hg
        · subst hg
          intro hmem
          rcases List.mem_cons.mp hmem with h | h
          · exact hc h.symm
          · exact ih g0 (hsp ▸ List.mem_cons_self g0 gs) h
        · exact ih g (hsp ▸ List.mem_cons_of_mem g0 hg)

theorem pyJoin_splitSlash (l : List Char) : pyJoin ['/'] (splitSlash l) = l := by
  induction l with
  | nil => rfl
  | cons c rest ih =>
    by_cases hc : c = '/'
    · subst hc
      simp only [splitSlash, if_pos rfl]
      cases hsp : splitSlash rest with
      | nil => exact absurd hsp (splitSlash_ne_nil rest)
      | cons g gs =>
        rw [hsp] at ih
        show pyJoin ['/'] ([] :: g :: gs) = '/' :: rest
        simp only [pyJoin, List.nil_append, List.singleton_append]
        exact congrArg _ ih
    · simp only [splitSlash, if_neg hc]
      cases hsp : splitSlash rest with
      | nil => exact absurd hsp (splitSlash_ne_nil rest)
      | cons g gs =>
        rw [hsp] at ih
        show pyJoin ['/'] (consHead c (g :: gs)) = c :: rest
        simp only [consHead]
        cases gs with
        | nil =>
          simp only [pyJoin] at ih ⊢
          exact congrArg _ ih
        | cons g2 gs2 =>
          simp only [pyJoin] at ih ⊢
          rw [← ih]
          simp

theorem splitSlash_of_sep_free (p : List Char) (h : '/' ∉ p) : splitSlash p = [p] := by
  induction p with
  | nil => rfl
  | cons d p' ih =>
    have hd : d ≠ '/' := fun hh => h (hh ▸ List.mem_cons_self d p')
    have hp' : '/' ∉ p' := fun hh => h (List.mem_cons_of_mem d hh)
    simp only [splitSlash, if_neg hd, ih hp', consHead]

theorem splitSlash_append_sep (p t : List Char) (h : '/' ∉ p) :
    splitSlash (p ++ '/' :: t) = p :: splitSlash t := by
  induction p with
  | nil => simp [splitSlash]
  | cons d p' ih =>
    have hd : d ≠ '/' := fun hh => h (hh ▸ List.mem_cons_self d p')
    have hp' : '/' ∉ p' := fun hh => h (List.mem_cons_of_mem d hh)
    simp only [List.cons_append, splitSlash, if_neg hd, List.append_eq, ih hp', consHead]

theorem pyJoin_cons_cons (sep g g2 : List Char) (gs : List (List Char)) :
    pyJoin sep (g :: g2 :: gs) = g ++ sep ++ pyJoin sep (g2 :: gs) := rfl

theorem splitSlash_pyJoin (parts : List (List Char)) (hne : parts ≠ [])
    (hfree : ∀ g ∈ parts, '/' ∉ g) : splitSlash (pyJoin ['/'] parts) = parts := by
  induction parts with
  | nil => exact absurd rfl hne
  | cons p parts' ih =>
    cases parts' with
    | nil =>
      exact splitSlash_of_sep_free p (hfree p (List.mem_cons_self _ _))
    | cons p2 parts2 =>
      have hp : '/' ∉ p := hfree p (List.mem_cons_self _ _)
      have hrec := ih (List.cons_ne_nil _ _)
        (fun g hg => hfree g (List.mem_cons_of_mem p hg))
      have hstep : pyJoin ['/'] (p :: p2 :: parts2)
          = p ++ '/' :: pyJoin ['/'] (p2 :: parts2) := by
        rw [pyJoin_cons_cons]
        simp
      rw [hstep, splitSlash_append_sep _ _ hp, hrec]

theorem getLast?_ne_slash_of_sep_free (p : List Char) (hfree : '/' ∉ p) :
    p.getLast? ≠ some '/' := by
  intro h
  obtain ⟨hh, heq⟩ := List.mem_getLast?_eq_getLast (show '/' ∈ p.getLast? from h)
  exact hfree (heq ▸ List.getLast_mem hh)

theorem posixJoin_norm (cd : List Char) (parts : List (List Char)) :
    cd ≠ [] → cd.getLast? ≠ some '/' →
    (∀ p ∈ parts, p ≠ [] ∧ '/' ∉ p) → parts ≠ [] →
    posixJoin cd parts = cd ++ '/' :: pyJoin ['/'] parts := by
  induction parts generalizing cd with
  | nil =>
    intro _ _ _ hne
    exact absurd rfl hne
  | cons p parts' ih =>
    intro h1 h2 h3 _
    obtain ⟨hpne, hpfree⟩ := h3 p (List.mem_cons_self _ _)
    have hhead : p.head? ≠ some '/' := by
      cases p with
      | nil => simp
      | cons d p' =>
        intro hd
        have hde : d = '/' := Option.some.inj hd
        subst hde
        exact hpfree (List.mem_cons_self _ _)
    have hjoin : joinOne cd p = cd ++ '/' :: p := by
      unfold joinOne
      rw [if_neg hhead, if_neg]
      push_neg
      exact ⟨h1, h2⟩
    cases parts' with
    | nil =>
      show List.foldl joinOne cd [p] = _
      rw [List.foldl_cons, List.foldl_nil, hjoin]
      rfl
    | cons p2 parts2 =>
      have hcd1 : cd ++ '/' :: p ≠ [] := by simp
      have hcd2 : (cd ++ '/' :: p).getLast? ≠ some '/' := by
        rw [List.getLast?_append_of_ne_nil cd (by simp)]
        have hsp : ('/' :: p).getLast? = p.getLast? := by
          have := List.getLast?_append_of_ne_nil ['/'] hpne
          simpa using this
        rw [hsp]
        exact getLast?_ne_slash_of_sep_free p hpfree
      have ih' := ih (cd ++ '/' :: p) hcd1 hcd2
        (fun q hq => h3 q (List.mem_cons_of_mem p hq)) (List.cons_ne_nil _ _)
      show List.foldl joinOne cd (p :: p2 :: parts2) = _
      rw [List.foldl_cons, hjoin]
      rw [show List.foldl joinOne (cd ++ '/' :: p) (p2 :: parts2)
            = posixJoin (cd ++ '/' :: p) (p2 :: parts2) from rfl, ih']
      rw [pyJoin_cons_cons]
      simp

/-! ## Sanity checks of the embedding on concrete inputs -/

example :
    splitSlash "/data/archive/projects/P/f".data
      = ["".data, "data".data, "archive".data, "projects".data, "P".data, "f".data] := by
  decide

example :
    cache_path "/cache".data "/data/archive/projects/P/f".data
      = "/cache/projects/P/f".data := by
  decide

example : splitU3 "___tp__t1___".data = ["".data, "tp__t1".data, "".data] := by
  decide

example : splitU2 "tp__t1".data = ["tp".data, "t1".data] := by
  decide

example :
    get_checksums false (fun _ => "x.nii") [("x.nii", "a"), ("x.json", "b")]
      = .ok [("x.json", "b"), (".", "a")] := by
  decide

/-- The reconstructed `Clinical.is_parent` agrees with every assertion of the
enum's unit test file: it returns true exactly on the pairs listed in
`clinicalTestParents`. -/
theorem clinical_is_parent_matches_tests :
    ∀ a b : Clinical, a.is_parent b = decide ((a, b) ∈ clinicalTestParents) := by
  decide

/-! ## Association list lemmas for the checksum dict -/

theorem lookup_eq_none_of_not_mem (d : List (String × String)) (k : String)
    (h : k ∉ d.map Prod.fst) : d.lookup k = none := by
  induction d with
  | nil => rfl
  | cons kv rest ih =>
    obtain ⟨k1, v1⟩ := kv
    simp only [List.map_cons, List.mem_cons, not_or] at h
    obtain ⟨h1, h2⟩ := h
    rw [List.lookup_cons, beq_false_of_ne h1]
    exact ih h2

theorem lookup_eraseP_of_ne (d : List (String × String)) (p k : String) (h : k ≠ p) :
    (d.eraseP (fun kv => kv.1 == p)).lookup k = d.lookup k := by
  induction d with
  | nil => rfl
  | cons kv rest ih =>
    obtain ⟨k1, v1⟩ := kv
    by_cases hkv : k1 = p
    · subst hkv
      rw [List.eraseP_cons_of_pos (by simp)]
      rw [List.lookup_cons, beq_false_of_ne h]
    · rw [List.eraseP_cons_of_neg (by simp [hkv])]
      by_cases hk : k = k1
      · subst hk
        simp [List.lookup_cons]
      · rw [List.lookup_cons, List.lookup_cons, beq_false_of_ne hk]
        exact ih

theorem lookup_eraseP_self (d : List (String × String)) (p : String)
    (hnd : (d.map Prod.fst).Nodup) :
    (d.eraseP (fun kv => kv.1 == p)).lookup p = none := by
  induction d with
  | nil => rfl
  | cons kv rest ih =>
    obtain ⟨k1, v1⟩ := kv
    simp only [List.map_cons, List.nodup_cons] at hnd
    obtain ⟨hk1, hnd2⟩ := hnd
    by_cases hkv : k1 = p
    · subst hkv
      rw [List.eraseP_cons_of_pos (by simp)]
      exact lookup_eq_none_of_not_mem rest k1 hk1
    · rw [List.eraseP_cons_of_neg (by simp [hkv])]
      rw [List.lookup_cons, beq_false_of_ne (fun hpk => hkv hpk.symm)]
      exact ih hnd2

theorem lookup_append (l1 l2 : List (String × String)) (k : String) :
    (l1 ++ l2).lookup k = (l1.lookup k).or (l2.lookup k) := by
  induction l1 with
  | nil => rfl
  | cons kv rest ih =>
    obtain ⟨k1, v1⟩ := kv
    by_cases hk : k = k1
    · subst hk
      simp [List.lookup_cons]
    · rw [List.cons_append, List.lookup_cons, List.lookup_cons, beq_false_of_ne hk]
      exact ih

/-! ## The claims -/

/-- Claim C1, counterexample: starting from an absent item with no marker, a
download whose zip archive is corrupt raises `ArcanaError` yet leaves the
`.download` marker directory behind, contradicting the claim that a failed
transfer leaves no marker. -/
theorem get_file_group_paths_badzip_leaves_marker_cex :
    (get_file_group_paths ⟨false, none, false⟩ true [(".", "abc123")] .badZip).2
        = .error .arcanaError
  ∧ (get_file_group_paths ⟨false, none, false⟩ true [(".", "abc123")] .badZip).1.markerExists
        = true := by
  decide

/-- Claim C1, amended: when the transfer of a file group fails with a corrupt
zip archive, `get_file_group_paths` propagates the error and creates no
cache entry, but the `.download` marker directory is left behind (with the
staged data inside), so a subsequent call on the same item finds the marker
and enters the race-recovery wait path instead of starting from the absent
state. -/
theorem get_file_group_paths_failure_propagates_and_leaves_marker
    (st : CacheState) (b : Bool) (m : Manifest)
    (h1 : st.markerExists = false) (h2 : need_to_download st b m = .ok true) :
    get_file_group_paths st b m .badZip
      = ({ st with markerExists := true }, .error .arcanaError) := by
  unfold get_file_group_paths
  rw [h2]
  simp only [download_file_group, h1, Bool.false_eq_true, if_false]

/-- Witness for the amended claim C1 at a concrete absent state. -/
theorem get_file_group_paths_failure_propagates_and_leaves_marker_witness :
    get_file_group_paths ⟨false, none, false⟩ true [(".", "abc123")] .badZip
      = (⟨false, none, true⟩, .error .arcanaError) :=
  get_file_group_paths_failure_propagates_and_leaves_marker
    ⟨false, none, false⟩ true [(".", "abc123")] rfl rfl

/-- Claim C2: for an item whose cache path is absent but whose `.download`
marker directory already exists, `get_file_group_paths` does not wait out
the race-condition delay and recover: the `EEXIST` handler evaluates
`self._race_cond_delay`, an attribute that does not exist (the attrs field
is named `race_condition_delay`), so an `AttributeError` is raised
immediately, contradicting the class docstring and the inline comments
that describe the wait-and-recover behaviour.  Moreover, even when
`_delayed_download` itself is driven past a marker whose modification time
is unchanged over a full delay, its takeover branch recreates the marker
directory and runs the fresh download with no `rmtree` afterwards, so a
marker directory remains on completion. -/
theorem get_file_group_paths_stale_marker_attribute_error :
    (∀ (b : Bool) (m : Manifest) (tr : Transfer),
      get_file_group_paths ⟨false, none, true⟩ b m tr
        = (⟨false, none, true⟩, .error .attributeError))
  ∧ (∀ (m0 : Nat) (rest : List (CacheState × Nat)),
      delayed_download m0 ((⟨false, none, true⟩, m0) :: rest)
        = some (.tookOver, true)) := by
  constructor
  · intro b m tr
    rfl
  · intro m0 rest
    simp [delayed_download]

/-- Claim C3, counterexample: at the concrete cache path `"c"`, both the
download path and the upload path write the manifest sidecar by opening
`"c.md5.json"` directly, and neither trace contains any rename operation,
contradicting the claim that the manifest is written to a temporary path
and then renamed. -/
theorem manifest_write_not_atomic_cex :
    FsOp.writeFile "c.md5.json" ∈ download_file_group_fs_ops "c"
  ∧ (download_file_group_fs_ops "c").all
      (fun op => match op with | FsOp.rename _ _ => false | _ => true) = true
  ∧ FsOp.writeFile "c.md5.json" ∈ put_file_group_fs_ops "c" true "src" "f.nii" []
  ∧ (put_file_group_fs_ops "c" true "src" "f.nii" []).all
      (fun op => match op with | FsOp.rename _ _ => false | _ => true) = true := by
  decide

/-- Claim C3, amended: for every cache path, both `download_file_group` and
`put_file_group` write the checksum manifest by opening
`<cache path>.md5.json` directly and dumping the JSON into it; no
temporary-file-plus-rename step appears anywhere in either routine's
filesystem operations. -/
theorem manifest_write_direct_no_rename (cachePath primarySrc primaryName : String)
    (cacheExisted : Bool) (auxFiles : List (String × String)) :
    (FsOp.writeFile (cachePath ++ ".md5.json") ∈ download_file_group_fs_ops cachePath
      ∧ (download_file_group_fs_ops cachePath).all
          (fun op => match op with | FsOp.rename _ _ => false | _ => true) = true)
  ∧ (FsOp.writeFile (cachePath ++ ".md5.json")
        ∈ put_file_group_fs_ops cachePath cacheExisted primarySrc primaryName auxFiles
      ∧ (put_file_group_fs_ops cachePath cacheExisted primarySrc primaryName auxFiles).all
          (fun op => match op with | FsOp.rename _ _ => false | _ => true) = true) := by
  refine ⟨⟨?_, ?_⟩, ?_, ?_⟩
  · simp [download_file_group_fs_ops]
  · rfl
  · simp [put_file_group_fs_ops]
  · cases cacheExisted <;>
      simp only [put_file_group_fs_ops, List.all_append, List.all_map,
        Function.comp, List.all_eq_true, List.mem_map, Prod.exists,
        forall_exists_index, and_imp] <;>
      simp <;>
      (intro x x1 x2 _ hx; subst hx; rfl)

/-- Claim C4, counterexample: with the cache path present and a manifest file
that exists but is unparsable as JSON, `get_file_group_paths` with
`check_md5` enabled propagates a `JSONDecodeError` instead of treating the
entry as stale and re-downloading: the source only catches `IOError`, and
`json.JSONDecodeError` is a `ValueError`. -/
theorem corrupt_manifest_raises_cex :
    get_file_group_paths ⟨true, some ManifestFile.corrupt, false⟩ true
        [(".", "abc123")] .ok
      = (⟨true, some ManifestFile.corrupt, false⟩, .error .jsonDecodeError) := by
  decide

/-- Claim C4, amended: only an `IOError` while opening the manifest file
(an absent manifest) is treated as needing re-download; a manifest file
that is present but unparsable raises a JSON decode error that propagates
to the caller of `get_file_group_paths`. -/
theorem need_to_download_ioerror_only (mk : Bool) (m : Manifest) :
    need_to_download ⟨true, none, mk⟩ true m = .ok true
  ∧ get_file_group_paths ⟨true, some ManifestFile.corrupt, mk⟩ true m .ok
      = (⟨true, some ManifestFile.corrupt, mk⟩, .error .jsonDecodeError) :=
  ⟨rfl, rfl⟩

/-- Claim C5: a second `get_file_group_paths` call on the same item with the
same remote manifest performs no byte transfer: whenever a first call
returns without an exception, the follow-up call returns `(st1, ok false)`
- the download branch is skipped and the state is unchanged. -/
theorem get_file_group_paths_second_call_no_transfer
    (st st1 : CacheState) (b : Bool) (m : Manifest) (tr tr2 : Transfer) (dl : Bool)
    (h : get_file_group_paths st b m tr = (st1, .ok dl)) :
    get_file_group_paths st1 b m tr2 = (st1, .ok false) := by
  unfold get_file_group_paths at h ⊢
  cases hnd : need_to_download st b m with
  | error e =>
    rw [hnd] at h
    simp at h
  | ok needs =>
    rw [hnd] at h
    cases needs with
    | false =>
      simp only [Prod.mk.injEq] at h
      obtain ⟨h1, _⟩ := h
      subst h1
      rw [hnd]
    | true =>
      by_cases hm : st.markerExists
      · simp [hm] at h
      · rw [if_neg (by simp [hm])] at h
        cases tr with
        | badZip => simp [download_file_group] at h
        | ok =>
          simp only [download_file_group, Prod.mk.injEq] at h
          obtain ⟨h1, _⟩ := h
          subst h1
          cases b <;> simp [need_to_download]

/-- Witness for claim C5: a first call from the absent state downloads, and
the second call on the resulting state transfers nothing. -/
theorem get_file_group_paths_second_call_no_transfer_witness :
    get_file_group_paths ⟨true, some (ManifestFile.parsed [(".", "abc123")]), false⟩
        true [(".", "abc123")] .ok
      = (⟨true, some (ManifestFile.parsed [(".", "abc123")]), false⟩, .ok false) :=
  get_file_group_paths_second_call_no_transfer ⟨false, none, false⟩ _ true
    [(".", "abc123")] .ok .ok true (by decide)

/-- Claim C6, counterexample: a waiting process whose first wake-up sees the
cache path present but no manifest file at all adopts the other process's
result, contradicting the claim that adoption requires a valid cache entry
(cache path and matching manifest). -/
theorem delayed_download_adopts_without_manifest_cex :
    delayed_download 0 [(⟨true, none, true⟩, 1)] = some (.adopted, true) := by
  decide

/-- Claim C6, amended: `_delayed_download` adopts the other process's result
as soon as a wake-up observes that the cache path exists; the manifest file
is not consulted at all, so mere existence of the cache path is adopted
regardless of manifest validity. -/
theorem delayed_download_adopts_on_cache_path_existence
    (m0 modTime : Nat) (man : Option ManifestFile) (mk : Bool)
    (rest : List (CacheState × Nat)) :
    delayed_download m0 ((⟨true, man, mk⟩, modTime) :: rest)
      = some (.adopted, mk) := by
  simp [delayed_download]

/-- Claim C8: when a remote resource with the escaped item name already
exists, `put_file_group` issues `delete` on the old resource first, then
creates the replacement resource and uploads its files, and the server
state reached right after the delete has neither the old nor the new
resource present. -/
theorem put_file_group_delete_old_then_create_new (files : List String) :
    put_file_group_remote_ops true files
      = RemoteOp.deleteRes :: RemoteOp.createRes :: files.map RemoteOp.uploadFile
  ∧ applyRemoteOp ⟨true, false, []⟩ RemoteOp.deleteRes = ⟨false, false, []⟩ :=
  ⟨rfl, rfl⟩

/-- Claim C9: for a non-directory file group whose remote listing has
pairwise-distinct names, none of them the sentinel, `get_checksums` rekeys
the primary file's digest under `"."`, drops the primary's own name, and
leaves every other file's entry unchanged. -/
theorem get_checksums_primary_keyed_by_sentinel
    (primaryOf : List String → String) (cs : List (String × String)) (v : String)
    (hnd : (cs.map Prod.fst).Nodup)
    (hp : cs.lookup (primaryOf (cs.map Prod.fst)) = some v)
    (hdot : cs.lookup "." = none) :
    ∃ out, get_checksums false primaryOf cs = .ok out
      ∧ out.lookup "." = some v
      ∧ out.lookup (primaryOf (cs.map Prod.fst)) = none
      ∧ ∀ k, k ≠ primaryOf (cs.map Prod.fst) → k ≠ "." → out.lookup k = cs.lookup k := by
  have hpd : primaryOf (cs.map Prod.fst) ≠ "." := by
    intro hcontra
    rw [hcontra, hdot] at hp
    exact Option.noConfusion hp
  have hrest : (cs.eraseP (fun kv => kv.1 == primaryOf (cs.map Prod.fst))).lookup "."
      = none := by
    rw [lookup_eraseP_of_ne cs _ "." (fun hcontra => hpd hcontra.symm)]
    exact hdot
  refine ⟨cs.eraseP (fun kv => kv.1 == primaryOf (cs.map Prod.fst)) ++ [(".", v)],
    ?_, ?_, ?_, ?_⟩
  · unfold get_checksums pyPop pyInsert
    rw [if_neg (by simp)]
    rw [hp]
    simp only [hrest, Option.isSome_none, Bool.false_eq_true, if_false]
  · rw [lookup_append, hrest]
    rfl
  · rw [lookup_append, lookup_eraseP_self cs _ hnd]
    rw [show List.lookup (primaryOf (cs.map Prod.fst)) [(".", v)] = none from by
      rw [List.lookup_cons, beq_false_of_ne hpd]
      rfl]
    rfl
  · intro k hk1 hk2
    rw [lookup_append, lookup_eraseP_of_ne cs _ k hk1]
    rw [show List.lookup k [(".", v)] = none from by
      rw [List.lookup_cons, beq_false_of_ne hk2]
      rfl]
    exact Option.or_none

/-- Witness for claim C9 on a concrete two-file listing. -/
theorem get_checksums_primary_keyed_by_sentinel_witness :
    ∃ out, get_checksums false (fun _ => "x.nii") [("x.nii", "a"), ("x.json", "b")]
        = .ok out
      ∧ out.lookup "." = some "a"
      ∧ out.lookup "x.nii" = none
      ∧ ∀ k, k ≠ "x.nii" → k ≠ "." →
          out.lookup k = [("x.nii", "a"), ("x.json", "b")].lookup k :=
  get_checksums_primary_keyed_by_sentinel (fun _ => "x.nii")
    [("x.nii", "a"), ("x.json", "b")] "a" (by decide) (by decide) (by decide)

/-- Claim C10: `unescape_name` does not invert `escape_name`.  For an item at
a session-frequency node with name path `deriv`, the escaped name is just
`deriv`, and `unescape_name` on it raises an `IndexError`: the slice
`xname.split('___')[1:-1]` is empty, so `id_parts[-1]` fails (and had the
loop run, the statement `freq_value != layer_freq` is a no-op comparison,
so the returned frequency would always be `Clinical(0)`). -/
theorem unescape_name_fails_on_escape_name_session :
    escape_name ⟨["deriv".data], ⟨Clinical.session, fun _ => []⟩⟩ = "deriv".data
  ∧ unescape_name "deriv".data = .error .indexError := by
  decide

/-- Claim C7, counterexample: `cache_path` drops the first three
`'/'`-separated segments of the URI, so the two distinct URIs
`/data/archive/projects/P/f` and `/a/b/projects/P/f` collide on the same
local cache path, contradicting injectivity over all distinct URIs. -/
theorem cache_path_not_injective_cex :
    "/data/archive/projects/P/f".data ≠ "/a/b/projects/P/f".data
  ∧ cache_path "/cache".data "/data/archive/projects/P/f".data
      = cache_path "/cache".data "/a/b/projects/P/f".data := by
  decide

/-- Claim C7, amended: `cache_path` is a pure deterministic function of the
URI (it is a plain function here, performing no I/O), but it is injective
only on URIs that agree on their first three `'/'`-separated segments: for
any two URIs with at least four segments, equal three-segment prefixes and
no empty trailing segment, equal cache paths force equal URIs.  Distinct
URIs differing in the dropped prefix (or via empty segments) can collide,
as the counterexample shows. -/
theorem cache_path_injective_on_shared_prefix (cd u1 u2 : List Char)
    (hcd1 : cd ≠ []) (hcd2 : cd.getLast? ≠ some '/')
    (hlen1 : 3 < (splitSlash u1).length) (hlen2 : 3 < (splitSlash u2).length)
    (hseg1 : ∀ p ∈ (splitSlash u1).drop 3, p ≠ [])
    (hseg2 : ∀ p ∈ (splitSlash u2).drop 3, p ≠ [])
    (hpre : (splitSlash u1).take 3 = (splitSlash u2).take 3)
    (heq : cache_path cd u1 = cache_path cd u2) : u1 = u2 := by
  have hd1ne : (splitSlash u1).drop 3 ≠ [] := by
    apply List.ne_nil_of_length_pos
    simp only [List.length_drop]
    omega
  have hd2ne : (splitSlash u2).drop 3 ≠ [] := by
    apply List.ne_nil_of_length_pos
    simp only [List.length_drop]
    omega
  have hcond1 : ∀ p ∈ (splitSlash u1).drop 3, p ≠ [] ∧ '/' ∉ p :=
    fun p hp => ⟨hseg1 p hp, splitSlash_sep_free u1 p (List.mem_of_mem_drop hp)⟩
  have hcond2 : ∀ p ∈ (splitSlash u2).drop 3, p ≠ [] ∧ '/' ∉ p :=
    fun p hp => ⟨hseg2 p hp, splitSlash_sep_free u2 p (List.mem_of_mem_drop hp)⟩
  have e1 : cache_path cd u1 = cd ++ '/' :: pyJoin ['/'] ((splitSlash u1).drop 3) :=
    posixJoin_norm cd _ hcd1 hcd2 hcond1 hd1ne
  have e2 : cache_path cd u2 = cd ++ '/' :: pyJoin ['/'] ((splitSlash u2).drop 3) :=
    posixJoin_norm cd _ hcd1 hcd2 hcond2 hd2ne
  rw [e1, e2] at heq
  have hJ : pyJoin ['/'] ((splitSlash u1).drop 3)
      = pyJoin ['/'] ((splitSlash u2).drop 3) := by
    have hc := List.append_cancel_left heq
    exact List.cons_injective.eq_iff.mp hc
  have hdrop : (splitSlash u1).drop 3 = (splitSlash u2).drop 3 := by
    have b1 := splitSlash_pyJoin _ hd1ne (fun g hg => (hcond1 g hg).2)
    have b2 := splitSlash_pyJoin _ hd2ne (fun g hg => (hcond2 g hg).2)
    rw [← b1, ← b2, hJ]
  have hsplit : splitSlash u1 = splitSlash u2 :=
    calc splitSlash u1
        = (splitSlash u1).take 3 ++ (splitSlash u1).drop 3 :=
          (List.take_append_drop 3 _).symm
      _ = (splitSlash u2).take 3 ++ (splitSlash u2).drop 3 := by rw [hpre, hdrop]
      _ = splitSlash u2 := List.take_append_drop 3 _
  calc u1 = pyJoin ['/'] (splitSlash u1) := (pyJoin_splitSlash u1).symm
    _ = pyJoin ['/'] (splitSlash u2) := by rw [hsplit]
    _ = u2 := pyJoin_splitSlash u2

/-- Witness for the amended claim C7 at concrete inputs. -/
theorem cache_path_injective_on_shared_prefix_witness :
    ("/cache".data : List Char) ≠ []
  ∧ "/data/archive/projects/P/f".data = "/data/archive/projects/P/f".data :=
  ⟨by decide,
    cache_path_injective_on_shared_prefix "/cache".data
      "/data/archive/projects/P/f".data "/data/archive/projects/P/f".data
      (by decide) (by decide) (by decide) (by decide) (by decide) (by decide)
      (by decide) rfl⟩

end Arcana
